import Mathlib

/-!
Shallow embedding of the pdf_bot repository's streaming chat relay
(src/app/api/chat.py), client stream consumer (src/app/ui/chat_ui.py) and
PDF upload endpoint (src/app/api/upload.py).  Python strings are modelled
as lists of characters.
-/

abbrev Str := List Char

/-- Character data of a Lean string literal; used to embed Python string
literals from the source. -/
def str (s : String) : Str := s.data

/-! ### The fragment producer and the stream relay (src/app/api/chat.py) -/

/-- One chunk yielded by the agent stream (chat.py lines 36-46): a Python
string, an object exposing a content attribute, or any other value whose
textual representation str(chunk) is used. -/
inductive Chunk
  | pstr (s : Str)
  | obj (content : Str)
  | other (text : Str)
deriving DecidableEq

/-- Python truthiness of a chunk, as tested by the statement
`if chunk:` on chat.py line 37: an empty string is falsy, a non-empty
string is truthy, and plain objects (no custom boolean conversion) are
always truthy. -/
def Chunk.truthy : Chunk → Bool
  | .pstr s => !s.isEmpty
  | .obj _ => true
  | .other _ => true

/-- Text extracted from a chunk, chat.py lines 39-45: a string is used
as is, an object with a content attribute yields that attribute, anything
else is converted with str(). -/
def Chunk.extract : Chunk → Str
  | .pstr s => s
  | .obj c => c
  | .other t => t

/-- Observable behaviour of one run of the agent stream: the chunks it
yields in order and, when iteration ends by raising instead of finishing,
the exception message str(e). -/
structure ProducerRun where
  chunks : List Chunk
  error : Option Str
deriving DecidableEq

/-- Shape of the value returned by agent.arun (chat.py lines 25-32): either
a coroutine that must first be awaited to obtain the stream, or a
ready-to-iterate asynchronous stream. -/
inductive ArunResult
  | coroutine (stream : ProducerRun)
  | asyncGen (stream : ProducerRun)
deriving DecidableEq

/-- Normalisation step of chat.py lines 29-32: when inspect.iscoroutine is
true the coroutine is awaited, otherwise the value is used directly. -/
def normalizeArun : ArunResult → ProducerRun
  | .coroutine s => s
  | .asyncGen s => s

/-- Session identity resolution of chat.py line 20:
`user_id = session_id if session_id else str(uuid.uuid4())`.  The value
produced by str(uuid.uuid4()) is passed in as the parameter fresh. -/
def resolveUserId (session_id : Option Str) (fresh : Str) : Str :=
  match session_id with
  | some s => if s.isEmpty then fresh else s
  | none => fresh

/-- Terminal session payload of chat.py line 50: the f-string
yielding a newline, the literal marker, the user id and two underscores. -/
def sessionMarker (user_id : Str) : Str :=
  str "\n__SESSION_ID__:" ++ user_id ++ str "__"

/-- Error payload of chat.py lines 53-54: the f-string interpolating
str(e) into a JSON object literal. -/
def errorPayload (msg : Str) : Str :=
  str "\x7b\"error\": \"Agent error\", \"detail\": \"" ++ msg ++ str "\"\x7d"

/-- The chunk loop of chat.py lines 36-47: every truthy chunk has its text
extracted and yielded; falsy chunks are skipped. -/
def processChunks : List Chunk → List Str
  | [] => []
  | c :: rest =>
      if c.truthy then c.extract :: processChunks rest else processChunks rest

/-- The generator body of _stream_agent_response (chat.py lines 14-55) as
the list of payloads it yields: the extracted truthy chunk texts in order,
then either the session marker (normal completion, line 50) or the JSON
error payload (when the try body raised, lines 52-55). -/
def streamAgentResponse (run : ProducerRun) (session_id : Option Str)
    (fresh : Str) : List Str :=
  let user_id := resolveUserId session_id fresh
  processChunks run.chunks ++
    (match run.error with
     | none => [sessionMarker user_id]
     | some msg => [errorPayload msg])

/-- The stream relay applied to whichever shape agent.arun returned:
normalize first (chat.py lines 29-32), then run the generator body. -/
def streamAgentResponseArun (res : ArunResult) (session_id : Option Str)
    (fresh : Str) : List Str :=
  streamAgentResponse (normalizeArun res) session_id fresh

/-- SSE wrapping of one payload by generate (chat.py line 72):
`f"data: {chunk}\n\n"`. -/
def sseFrame (payload : Str) : Str :=
  str "data: " ++ payload ++ str "\n\n"

/-- The inner generate of stream_chat (chat.py lines 65-72): every payload
yielded by _stream_agent_response is wrapped as one SSE frame. -/
def generate (run : ProducerRun) (session_id : Option Str)
    (fresh : Str) : List Str :=
  (streamAgentResponse run session_id fresh).map sseFrame

/-- Frames of the whole relay pipeline starting from the agent.arun
result. -/
def generateArun (res : ArunResult) (session_id : Option Str)
    (fresh : Str) : List Str :=
  (streamAgentResponseArun res session_id fresh).map sseFrame

/-- Stripping the SSE syntax from a frame: remove the six characters of
the data prefix and the two characters of the blank-line delimiter. -/
def stripSse (f : Str) : Str :=
  (f.drop 6).take ((f.drop 6).length - 2)

/-- Events observable at the relay-producer boundary, used to express how
often the producer is invoked per turn. -/
inductive RelayEvent
  | invokeProducer
  | awaitCoroutine
  | yieldPayload (p : Str)
deriving DecidableEq

/-- Test for the producer-invocation event. -/
def RelayEvent.isInvoke : RelayEvent → Bool
  | .invokeProducer => true
  | _ => false

/-- Interaction trace of one turn of _stream_agent_response: line 25 calls
agent.arun once, lines 29-32 additionally await the result when it is a
coroutine, and the loop plus trailer yield the payloads. -/
def relayTrace (res : ArunResult) (session_id : Option Str)
    (fresh : Str) : List RelayEvent :=
  [RelayEvent.invokeProducer] ++
    (match res with
     | .coroutine _ => [RelayEvent.awaitCoroutine]
     | .asyncGen _ => []) ++
    (streamAgentResponseArun res session_id fresh).map RelayEvent.yieldPayload

/-- Number of producer invocations in a turn's trace. -/
def arunInvocations (res : ArunResult) (session_id : Option Str)
    (fresh : Str) : Nat :=
  ((relayTrace res session_id fresh).filter RelayEvent.isInvoke).length

/-! ### The upload endpoint (src/app/api/upload.py) -/

/-- One filesystem operation performed by upload_pdf. -/
inductive FsOp
  | write (path : Str)
  | delete (path : Str)
deriving DecidableEq

/-- JSON body returned by upload_pdf on success (upload.py lines 63-72). -/
structure UploadSuccess where
  message : Str
  file_id : Str
  filename : Str
  status : Str
deriving DecidableEq

/-- HTTP error raised by upload_pdf: status code and detail string. -/
structure HttpError where
  statusCode : Nat
  detail : Str
deriving DecidableEq

/-- Outcome of one call to upload_pdf: the response, the ordered trace of
filesystem operations performed, the files still present on disk
afterwards, and the contents handed to the knowledge base. -/
structure UploadResult where
  response : Except HttpError UploadSuccess
  fsTrace : List FsOp
  files : List Str
  kbContents : List Str

/-- Lower-casing of a Python string by str.lower(), character by
character. -/
def lowerStr (s : Str) : Str := s.map Char.toLower

/-- The validation test of upload.py line 26:
`if not file.filename or not file.filename.lower().endswith(".pdf")`.
The filename is None or empty (falsy), or its lower-cased form does not
end with the literal ".pdf". -/
def rejectsFilename (filename : Option Str) : Bool :=
  match filename with
  | none => true
  | some fn => fn.isEmpty || !((str ".pdf").isSuffixOf (lowerStr fn))

/-- The upload_pdf handler (upload.py lines 22-82).  The uuid4 hex string
is passed in as fileId and the external knowledge.add_content call is
modelled by its outcome addContent: success, or an exception with
message str(e).  On validation failure the 400 is raised before anything
is written; otherwise the file is written to uploads under the
uuid-prefixed name, the knowledge base is handed the file, and on any
exception the written file is unlinked before the 500 is raised. -/
def uploadPdf (filename : Option Str) (fileId : Str)
    (addContent : Except Str Unit) : UploadResult :=
  if rejectsFilename filename then
    { response := Except.error ⟨400, str "Only PDF files are allowed"⟩
      fsTrace := []
      files := []
      kbContents := [] }
  else
    let fn := filename.getD []
    let filePath := fileId ++ str "_" ++ fn
    match addContent with
    | Except.ok _ =>
        { response := Except.ok
            { message := str "PDF uploaded and processed successfully"
              file_id := fileId
              filename := fn
              status := str "processing" }
          fsTrace := [FsOp.write filePath]
          files := [filePath]
          kbContents := [filePath] }
    | Except.error msg =>
        { response := Except.error
            ⟨500, str "Failed to upload PDF: " ++ msg⟩
          fsTrace := [FsOp.write filePath, FsOp.delete filePath]
          files := []
          kbContents := [] }

/-! ### The client stream consumer (src/app/ui/chat_ui.py, send_message) -/

/-- Python s.split(sep, 1) when sep occurs in s: the text before the first
occurrence of sep and the text after it.  Returns none when sep does not
occur in s (which also covers the test `sep in s`). -/
def splitFirst (sep : Str) (s : Str) : Option (Str × Str) :=
  match sep, s with
  | [], _ => none
  | _ :: _, [] => none
  | _ :: _, c :: rest =>
      if sep.isPrefixOf s then some ([], s.drop sep.length)
      else (splitFirst sep rest).map (fun p => (c :: p.1, p.2))

/-- Python substring membership `sep in s` for non-empty sep. -/
def containsSub (sep s : Str) : Bool := (splitFirst sep s).isSome

/-- Structural bound used for termination: splitting removes at least the
separator from the string. -/
theorem splitFirst_length_lt (sep s a b : Str)
    (h : splitFirst sep s = some (a, b)) : b.length < s.length := by
  induction s generalizing a b with
  | nil => cases sep <;> simp [splitFirst] at h
  | cons c rest ih =>
      cases sep with
      | nil => simp [splitFirst] at h
      | cons x xs =>
          rw [splitFirst] at h
          by_cases hp : (x :: xs).isPrefixOf (c :: rest) = true
          · rw [if_pos hp] at h
            simp only [Option.some.injEq, Prod.mk.injEq] at h
            obtain ⟨-, hb⟩ := h
            subst hb
            simp only [List.length_drop, List.length_cons]
            omega
          · rw [if_neg hp] at h
            cases ho : splitFirst (x :: xs) rest with
            | none => rw [ho] at h; simp at h
            | some p =>
                obtain ⟨a', b'⟩ := p
                rw [ho] at h
                simp only [Option.map_some', Option.some.injEq,
                  Prod.mk.injEq] at h
                obtain ⟨-, hb⟩ := h
                subst hb
                have hlt := ih a' b' ho
                simp only [List.length_cons]
                omega

/-- Python content.split(sep) for non-empty sep: all the pieces between
occurrences of sep, in order. -/
def pySplit (sep s : Str) : List Str :=
  match h : splitFirst sep s with
  | none => [s]
  | some (a, b) => a :: pySplit sep b
termination_by s.length
decreasing_by exact splitFirst_length_lt sep s a b h

/-- State of the client consumer that survives a turn: the ordered list of
processed frame contents appended to the displayed response text, and the
stored session key. -/
structure ConsumerOut where
  processed : List Str
  session : Option Str
deriving DecidableEq

/-- The literal "data: " tested and stripped by chat_ui.py lines 141-142. -/
def dataHeader : Str := str "data: "

/-- The literal session marker searched on chat_ui.py line 145. -/
def sessionIdMarker : Str := str "__SESSION_ID__:"

/-- Processing of one complete frame line by send_message (chat_ui.py
lines 141-157): lines without the data prefix are ignored; otherwise the
six-character prefix is removed, and when the session marker occurs in the
content the part after the first marker up to the next two underscores
becomes the session key while the part before the marker remains the
displayed content; the resulting content is appended to the response. -/
def processLine (line : Str) (st : ConsumerOut) : ConsumerOut :=
  if dataHeader.isPrefixOf line then
    let content := line.drop 6
    if containsSub sessionIdMarker content then
      let parts := pySplit sessionIdMarker content
      if 1 < parts.length then
        { processed := st.processed ++ [parts.get! 0]
          session := some ((pySplit (str "__") (parts.get! 1)).get! 0) }
      else
        { processed := st.processed ++ [content], session := st.session }
    else
      { processed := st.processed ++ [content], session := st.session }
  else st

/-- The two-character SSE delimiter. -/
def nlnl : Str := str "\n\n"

/-- The while-loop of chat_ui.py lines 139-157: while the buffer contains
the delimiter, split off the text before its first occurrence as one
complete line, process that line, and keep the remainder buffered. -/
def drainBuffer (buffer : Str) (st : ConsumerOut) : Str × ConsumerOut :=
  match h : splitFirst nlnl buffer with
  | none => (buffer, st)
  | some (line, rest) => drainBuffer rest (processLine line st)
termination_by buffer.length
decreasing_by exact splitFirst_length_lt nlnl buffer line rest h

/-- One network read appended to the buffer and drained (chat_ui.py lines
136-138). -/
def consumeChunk (acc : Str × ConsumerOut) (chunk : Str) : Str × ConsumerOut :=
  drainBuffer (acc.1 ++ chunk) acc.2

/-- The whole streaming loop of send_message for one response body split
into successive network reads, starting from a stored session key. -/
def runConsumerFrom (sid0 : Option Str) (reads : List Str) :
    Str × ConsumerOut :=
  reads.foldl consumeChunk ([], ⟨[], sid0⟩)

/-- Canonical textual form of str(uuid.uuid4()): 36 characters, dashes at
positions 8, 13, 18 and 23, lower-case hexadecimal digits elsewhere, with
the version and variant nibbles of a random (version 4) UUID. -/
def isCanonicalUuid (s : Str) : Bool :=
  (s.length == 36) &&
    (List.range 36).all (fun i =>
      let c := s.getD i ' '
      if i == 8 || i == 13 || i == 18 || i == 23 then c == '-'
      else if i == 14 then c == '4'
      else if i == 19 then c == '8' || c == '9' || c == 'a' || c == 'b'
      else c.isDigit || ('a' ≤ c && c ≤ 'f'))

/-! ### Helper lemmas -/

/-- Splitting accounts for every character: the prefix, the separator and
the remainder partition the string. -/
theorem splitFirst_length_sum (sep s a b : Str)
    (h : splitFirst sep s = some (a, b)) :
    a.length + sep.length + b.length = s.length := by
  induction s generalizing a b with
  | nil => cases sep <;> simp [splitFirst] at h
  | cons c rest ih =>
      cases sep with
      | nil => simp [splitFirst] at h
      | cons x xs =>
          rw [splitFirst] at h
          by_cases hp : (x :: xs).isPrefixOf (c :: rest) = true
          · rw [if_pos hp] at h
            simp only [Option.some.injEq, Prod.mk.injEq] at h
            obtain ⟨ha, hb⟩ := h
            subst ha
            subst hb
            have hle : (x :: xs).length ≤ (c :: rest).length :=
              (List.isPrefixOf_iff_prefix.mp hp).length_le
            simp only [List.length_nil, List.length_drop, List.length_cons] at *
            omega
          · rw [if_neg hp] at h
            cases ho : splitFirst (x :: xs) rest with
            | none => rw [ho] at h; simp at h
            | some p =>
                obtain ⟨a', b'⟩ := p
                rw [ho] at h
                simp only [Option.map_some', Option.some.injEq,
                  Prod.mk.injEq] at h
                obtain ⟨ha, hb⟩ := h
                subst ha
                subst hb
                have hsum := ih a' b' ho
                simp only [List.length_cons] at hsum ⊢
                omega

/-- Appending more input does not change the position of the first
separator occurrence: the split commutes with extension on the right. -/
theorem splitFirst_append (sep s t a b : Str)
    (h : splitFirst sep s = some (a, b)) :
    splitFirst sep (s ++ t) = some (a, b ++ t) := by
  induction s generalizing a b with
  | nil => cases sep <;> simp [splitFirst] at h
  | cons c rest ih =>
      cases sep with
      | nil => simp [splitFirst] at h
      | cons x xs =>
          rw [splitFirst] at h
          show splitFirst (x :: xs) (c :: (rest ++ t)) = some (a, b ++ t)
          rw [splitFirst]
          by_cases hp : (x :: xs).isPrefixOf (c :: rest) = true
          · rw [if_pos hp] at h
            simp only [Option.some.injEq, Prod.mk.injEq] at h
            obtain ⟨ha, hb⟩ := h
            subst ha
            have hpre : (x :: xs) <+: (c :: rest) :=
              List.isPrefixOf_iff_prefix.mp hp
            have hp2 : (x :: xs).isPrefixOf (c :: (rest ++ t)) = true :=
              List.isPrefixOf_iff_prefix.mpr
                (hpre.trans (List.prefix_append (c :: rest) t))
            rw [if_pos hp2]
            have hle : (x :: xs).length ≤ (c :: rest).length := hpre.length_le
            have hdrop : (c :: (rest ++ t)).drop (x :: xs).length
                = (c :: rest).drop (x :: xs).length ++ t := by
              show ((c :: rest) ++ t).drop (x :: xs).length = _
              rw [List.drop_append_eq_append_drop,
                Nat.sub_eq_zero_of_le hle, List.drop_zero]
            rw [hdrop, hb]
          · rw [if_neg hp] at h
            cases ho : splitFirst (x :: xs) rest with
            | none => rw [ho] at h; simp at h
            | some p =>
                obtain ⟨a', b'⟩ := p
                rw [ho] at h
                simp only [Option.map_some', Option.some.injEq,
                  Prod.mk.injEq] at h
                obtain ⟨ha, hb⟩ := h
                subst hb
                have hsum := splitFirst_length_sum (x :: xs) rest a' b' ho
                have hp2 : ¬ (x :: xs).isPrefixOf (c :: (rest ++ t)) = true := by
                  intro hcon
                  apply hp
                  have hpre : (x :: xs) <+: (c :: (rest ++ t)) :=
                    List.isPrefixOf_iff_prefix.mp hcon
                  have htake : (x :: xs) = (c :: (rest ++ t)).take (x :: xs).length :=
                    List.prefix_iff_eq_take.mp hpre
                  have hle2 : (x :: xs).length ≤ (c :: rest).length := by
                    simp only [List.length_cons] at hsum ⊢
                    omega
                  have htake2 : (c :: (rest ++ t)).take (x :: xs).length
                      = (c :: rest).take (x :: xs).length := by
                    show ((c :: rest) ++ t).take (x :: xs).length = _
                    rw [List.take_append_eq_append_take,
                      Nat.sub_eq_zero_of_le hle2, List.take_zero,
                      List.append_nil]
                  apply List.isPrefixOf_iff_prefix.mpr
                  rw [htake, htake2]
                  exact List.take_prefix _ _
                rw [if_neg hp2, ih a' b' ho]
                simp only [Option.map_some']
                rw [← ha]

/-- Unfolding of drainBuffer when the buffer holds no complete frame. -/
theorem drainBuffer_of_none (b : Str) (st : ConsumerOut)
    (h : splitFirst nlnl b = none) : drainBuffer b st = (b, st) := by
  rw [drainBuffer]
  split
  · rfl
  · next line rest hsome => rw [h] at hsome; exact absurd hsome (by simp)

/-- Unfolding of drainBuffer when the buffer holds a complete frame. -/
theorem drainBuffer_of_some (b : Str) (st : ConsumerOut) (line rest : Str)
    (h : splitFirst nlnl b = some (line, rest)) :
    drainBuffer b st = drainBuffer rest (processLine line st) := by
  rw [drainBuffer]
  split
  · next hnone => rw [h] at hnone; exact absurd hnone (by simp)
  · next line' rest' hsome =>
      rw [h] at hsome
      simp only [Option.some.injEq, Prod.mk.injEq] at hsome
      obtain ⟨h1, h2⟩ := hsome
      rw [h1, h2]

/-- Draining early commits the same frames: appending further input to an
already drained buffer and draining again equals draining the combined
input at once. -/
theorem drainBuffer_append (b t : Str) (st : ConsumerOut) :
    drainBuffer (b ++ t) st
      = drainBuffer ((drainBuffer b st).1 ++ t) (drainBuffer b st).2 := by
  generalize hn : b.length = n
  induction n using Nat.strong_induction_on generalizing b st with
  | _ n ih =>
      cases hs : splitFirst nlnl b with
      | none => rw [drainBuffer_of_none b st hs]
      | some p =>
          obtain ⟨line, rest⟩ := p
          rw [drainBuffer_of_some b st line rest hs,
            drainBuffer_of_some (b ++ t) st line (rest ++ t)
              (splitFirst_append nlnl b t line rest hs)]
          have hlt : rest.length < n := hn ▸ splitFirst_length_lt nlnl b line rest hs
          exact ih rest.length hlt rest (processLine line st) rfl

/-- Folding the read loop from a drained state processes exactly the
concatenation of the remaining reads. -/
theorem foldl_consumeChunk (reads : List Str) (b : Str) (st : ConsumerOut) :
    reads.foldl consumeChunk (drainBuffer b st)
      = drainBuffer (b ++ reads.flatten) st := by
  induction reads generalizing b st with
  | nil => simp
  | cons r rs ih =>
      rw [List.foldl_cons]
      have h1 : consumeChunk (drainBuffer b st) r = drainBuffer (b ++ r) st := by
        unfold consumeChunk
        exact (drainBuffer_append b r st).symm
      rw [h1, ih (b ++ r) st, List.flatten_cons, List.append_assoc]

/-- The consumer's final state depends only on the concatenated byte
stream: the whole loop equals one drain of the joined reads. -/
theorem runConsumerFrom_eq_drain (sid0 : Option Str) (reads : List Str) :
    runConsumerFrom sid0 reads = drainBuffer reads.flatten ⟨[], sid0⟩ := by
  unfold runConsumerFrom
  have h0 : (([], (⟨[], sid0⟩ : ConsumerOut)) : Str × ConsumerOut)
      = drainBuffer [] ⟨[], sid0⟩ := by
    rw [drainBuffer_of_none [] ⟨[], sid0⟩ rfl]
  rw [h0, foldl_consumeChunk reads [] ⟨[], sid0⟩, List.nil_append]

/-- When every chunk is truthy the loop yields each chunk's extracted
text. -/
theorem processChunks_of_truthy (chunks : List Chunk)
    (h : ∀ c ∈ chunks, c.truthy = true) :
    processChunks chunks = chunks.map Chunk.extract := by
  induction chunks with
  | nil => rfl
  | cons c rest ih =>
      rw [processChunks, if_pos (h c (List.mem_cons_self c rest)),
        List.map_cons, ih (fun d hd => h d (List.mem_cons_of_mem c hd))]

/-- Stripping the SSE syntax from a wrapped frame recovers the payload. -/
theorem stripSse_sseFrame (p : Str) : stripSse (sseFrame p) = p := by
  have h1 : sseFrame p
      = 'd' :: 'a' :: 't' :: 'a' :: ':' :: ' ' :: (p ++ ['\n', '\n']) := rfl
  rw [stripSse, h1]
  simp only [List.drop_succ_cons, List.drop_zero]
  have h2 : (p ++ ['\n', '\n']).length - 2 = p.length := by
    simp [List.length_append]
  rw [h2, List.take_append_eq_append_take, List.take_length, Nat.sub_self,
    List.take_zero, List.append_nil]

/-- The chunk loop distributes over concatenation of producer outputs. -/
theorem processChunks_append (l1 l2 : List Chunk) :
    processChunks (l1 ++ l2) = processChunks l1 ++ processChunks l2 := by
  induction l1 with
  | nil => rfl
  | cons c rest ih =>
      rw [List.cons_append, processChunks, processChunks]
      by_cases hc : c.truthy = true
      · rw [if_pos hc, if_pos hc, ih, List.cons_append]
      · rw [if_neg hc, if_neg hc, ih]

/-- Mapped payload-yield events are never producer invocations. -/
theorem filter_isInvoke_yield (l : List Str) :
    (l.map RelayEvent.yieldPayload).filter RelayEvent.isInvoke = [] := by
  induction l with
  | nil => rfl
  | cons a l ih => simp [List.filter, RelayEvent.isInvoke, ih]

/-! ### Claims about the stream relay -/

/-- Claim C1, counterexample: two fragments that are empty strings form a
fragment sequence of length 2 yielded without raising, yet the relay
emits no content frame at all -- only the single terminal session frame --
contradicting the claimed minimum of two content frames. -/
theorem relay_min_content_frames_cex :
    ([Chunk.pstr [], Chunk.pstr []] : List Chunk).length = 2 ∧
    generate ⟨[Chunk.pstr [], Chunk.pstr []], none⟩ none (str "u")
      = [sseFrame (sessionMarker (str "u"))] :=
  ⟨rfl, rfl⟩

/-- Claim C1 (amended): for every fragment sequence of length at least 2
all of whose fragments are truthy, the relay emits one content frame per
fragment -- hence at least two -- followed by exactly one terminal session
frame, and the content frames taken in emission order, stripped of the
data prefix and the blank-line delimiter, concatenate to exactly the
concatenation of the extracted fragment texts. -/
theorem relay_completed_stream_shape (chunks : List Chunk)
    (session_id : Option Str) (fresh : Str)
    (h2 : 2 ≤ chunks.length) (ht : ∀ c ∈ chunks, c.truthy = true) :
    generate ⟨chunks, none⟩ session_id fresh
      = (chunks.map Chunk.extract).map sseFrame
          ++ [sseFrame (sessionMarker (resolveUserId session_id fresh))]
    ∧ 2 ≤ ((chunks.map Chunk.extract).map sseFrame).length
    ∧ (((chunks.map Chunk.extract).map sseFrame).map stripSse).flatten
        = (chunks.map Chunk.extract).flatten := by
  refine ⟨?_, ?_, ?_⟩
  · show (streamAgentResponse ⟨chunks, none⟩ session_id fresh).map sseFrame = _
    unfold streamAgentResponse
    rw [processChunks_of_truthy chunks ht]
    simp
  · simpa using h2
  · rw [List.map_map]
    simp [Function.comp_def, stripSse_sseFrame]

/-- Witness for relay_completed_stream_shape: the two-fragment run from
the spec's scenario, one plain string and one object fragment. -/
theorem relay_completed_stream_shape_witness :
    2 ≤ ([Chunk.pstr (str "Hi"), Chunk.obj (str " there")] : List Chunk).length
    ∧ ([Chunk.pstr (str "Hi"), Chunk.obj (str " there")].all Chunk.truthy = true)
    ∧ (generate ⟨[Chunk.pstr (str "Hi"), Chunk.obj (str " there")], none⟩ none (str "u1")
        = (([Chunk.pstr (str "Hi"), Chunk.obj (str " there")] : List Chunk).map Chunk.extract).map sseFrame
            ++ [sseFrame (sessionMarker (resolveUserId none (str "u1")))]
      ∧ 2 ≤ ((([Chunk.pstr (str "Hi"), Chunk.obj (str " there")] : List Chunk).map Chunk.extract).map sseFrame).length
      ∧ (((([Chunk.pstr (str "Hi"), Chunk.obj (str " there")] : List Chunk).map Chunk.extract).map sseFrame).map stripSse).flatten
          = (([Chunk.pstr (str "Hi"), Chunk.obj (str " there")] : List Chunk).map Chunk.extract).flatten) :=
  ⟨by decide, by decide,
    relay_completed_stream_shape [Chunk.pstr (str "Hi"), Chunk.obj (str " there")]
      none (str "u1") (by decide) (by decide)⟩

/-- Claim C2, counterexample: the producer yields one fragment, the empty
string, then raises with message boom; the claim demands exactly one
content frame before the error frame, but the relay emits none -- the
stream is the single error frame. -/
theorem relay_error_frame_count_cex :
    ([Chunk.pstr []] : List Chunk).length = 1 ∧
    generate ⟨[Chunk.pstr []], some (str "boom")⟩ none (str "u")
      = [sseFrame (errorPayload (str "boom"))] :=
  ⟨rfl, rfl⟩

/-- Claim C2 (amended): when the producer raises with message msg after
yielding fragments all of which are truthy, the relay's stream is exactly
one content frame per fragment, in order, followed by exactly one terminal
frame whose payload is the JSON error object, and nothing -- in particular
no session frame -- follows the error frame. -/
theorem relay_error_stream_shape (chunks : List Chunk) (msg : Str)
    (session_id : Option Str) (fresh : Str)
    (ht : ∀ c ∈ chunks, c.truthy = true) :
    generate ⟨chunks, some msg⟩ session_id fresh
      = (chunks.map Chunk.extract).map sseFrame
          ++ [sseFrame (errorPayload msg)]
    ∧ ((chunks.map Chunk.extract).map sseFrame).length = chunks.length := by
  constructor
  · show (streamAgentResponse ⟨chunks, some msg⟩ session_id fresh).map sseFrame = _
    unfold streamAgentResponse
    rw [processChunks_of_truthy chunks ht]
    simp
  · simp

/-- Witness for relay_error_stream_shape: one truthy fragment followed by
an exception with message boom. -/
theorem relay_error_stream_shape_witness :
    ([Chunk.pstr (str "Hi")].all Chunk.truthy = true)
    ∧ (generate ⟨[Chunk.pstr (str "Hi")], some (str "boom")⟩ none (str "u1")
        = (([Chunk.pstr (str "Hi")] : List Chunk).map Chunk.extract).map sseFrame
            ++ [sseFrame (errorPayload (str "boom"))]
      ∧ ((([Chunk.pstr (str "Hi")] : List Chunk).map Chunk.extract).map sseFrame).length
          = ([Chunk.pstr (str "Hi")] : List Chunk).length) :=
  ⟨by decide,
    relay_error_stream_shape [Chunk.pstr (str "Hi")] (str "boom") none (str "u1")
      (by decide)⟩

/-- Claim C4, counterexample: a fragment that is an object whose content
field is empty has empty extracted text, yet the relay emits a content
frame for it (with empty payload), because the object itself is truthy. -/
theorem relay_empty_object_fragment_cex :
    Chunk.extract (Chunk.obj []) = [] ∧
    generate ⟨[Chunk.obj []], none⟩ none (str "u")
      = [sseFrame [], sseFrame (sessionMarker (str "u"))] :=
  ⟨rfl, rfl⟩

/-- Claim C4 (amended): a fragment that is a falsy empty string is skipped
entirely -- the stream is as if it were absent -- while an object whose
content field is empty yields one content frame with empty payload; in
neither case does the empty fragment terminate the stream or prevent the
later fragments and the terminal session frame from being emitted. -/
theorem relay_empty_fragment_handling (pre post : List Chunk)
    (session_id : Option Str) (fresh : Str) :
    streamAgentResponse ⟨pre ++ Chunk.pstr [] :: post, none⟩ session_id fresh
      = streamAgentResponse ⟨pre ++ post, none⟩ session_id fresh
    ∧ streamAgentResponse ⟨pre ++ Chunk.obj [] :: post, none⟩ session_id fresh
      = processChunks pre
          ++ ([] :: (processChunks post
                ++ [sessionMarker (resolveUserId session_id fresh)])) := by
  constructor
  · unfold streamAgentResponse
    rw [show (Chunk.pstr [] :: post) = [Chunk.pstr []] ++ post from rfl,
      processChunks_append, processChunks_append, processChunks_append]
    rfl
  · unfold streamAgentResponse
    rw [show (Chunk.obj [] :: post) = [Chunk.obj []] ++ post from rfl,
      processChunks_append, processChunks_append]
    simp [processChunks, Chunk.truthy, Chunk.extract]

/-- Claim C6: the relay produces the identical frame stream whether
agent.arun returned a coroutine that must first be awaited or a
ready-to-iterate asynchronous stream, and in both cases the turn's
interaction trace contains exactly one producer invocation. -/
theorem producer_shape_equivalence (run : ProducerRun)
    (session_id : Option Str) (fresh : Str) :
    generateArun (ArunResult.coroutine run) session_id fresh
      = generateArun (ArunResult.asyncGen run) session_id fresh
    ∧ arunInvocations (ArunResult.coroutine run) session_id fresh = 1
    ∧ arunInvocations (ArunResult.asyncGen run) session_id fresh = 1 := by
  refine ⟨rfl, ?_, ?_⟩ <;>
    simp [arunInvocations, relayTrace, List.filter_append,
      filter_isInvoke_yield, List.filter, RelayEvent.isInvoke]

/-- Claim C5: when the client supplies a non-empty session key, the key
carried inside the terminal session frame's marker is that key unchanged;
when no session key is supplied, the terminal frame carries the freshly
generated UUID string, which is non-empty. -/
theorem session_key_resolution (chunks : List Chunk) (k fresh : Str)
    (hfresh : isCanonicalUuid fresh = true) :
    (k.isEmpty = false →
        (generate ⟨chunks, none⟩ (some k) fresh).getLast?
          = some (sseFrame (sessionMarker k)))
    ∧ (generate ⟨chunks, none⟩ none fresh).getLast?
        = some (sseFrame (sessionMarker fresh))
    ∧ fresh ≠ [] := by
  have hlast : ∀ (sid : Option Str),
      (generate ⟨chunks, none⟩ sid fresh).getLast?
        = some (sseFrame (sessionMarker (resolveUserId sid fresh))) := by
    intro sid
    show ((streamAgentResponse ⟨chunks, none⟩ sid fresh).map sseFrame).getLast? = _
    unfold streamAgentResponse
    simp only [List.map_append, List.map_cons, List.map_nil]
    exact List.getLast?_concat _
  refine ⟨?_, ?_, ?_⟩
  · intro hk
    rw [hlast (some k)]
    simp [resolveUserId, hk]
  · rw [hlast none]
    rfl
  · have hlen : fresh.length = 36 := by
      unfold isCanonicalUuid at hfresh
      rw [Bool.and_eq_true] at hfresh
      have h1 := hfresh.1
      simpa using h1
    intro he
    rw [he] at hlen
    simp at hlen

/-- Witness for session_key_resolution at a concrete canonical UUID and a
concrete supplied key. -/
theorem session_key_resolution_witness :
    isCanonicalUuid (str "123e4567-e89b-42d3-a456-426614174000") = true
    ∧ (str "abc").isEmpty = false
    ∧ (generate ⟨[Chunk.pstr (str "Hi")], none⟩ (some (str "abc"))
          (str "123e4567-e89b-42d3-a456-426614174000")).getLast?
        = some (sseFrame (sessionMarker (str "abc")))
    ∧ (generate ⟨[Chunk.pstr (str "Hi")], none⟩ none
          (str "123e4567-e89b-42d3-a456-426614174000")).getLast?
        = some (sseFrame (sessionMarker (str "123e4567-e89b-42d3-a456-426614174000")))
    ∧ str "123e4567-e89b-42d3-a456-426614174000" ≠ [] :=
  ⟨by decide, by decide,
    (session_key_resolution [Chunk.pstr (str "Hi")] (str "abc")
        (str "123e4567-e89b-42d3-a456-426614174000") (by decide)).1 (by decide),
    (session_key_resolution [Chunk.pstr (str "Hi")] (str "abc")
        (str "123e4567-e89b-42d3-a456-426614174000") (by decide)).2.1,
    (session_key_resolution [Chunk.pstr (str "Hi")] (str "abc")
        (str "123e4567-e89b-42d3-a456-426614174000") (by decide)).2.2⟩

/-! ### Claims about the upload endpoint -/

/-- Claim C7: an upload whose filename does not end in ".pdf" under
case-insensitive comparison (including a missing filename) is rejected
with a 400 whose detail is the fixed message, before any filesystem
operation, leaving disk and knowledge index untouched. -/
theorem upload_rejects_non_pdf (filename : Option Str) (fileId : Str)
    (addContent : Except Str Unit)
    (h : ∀ fn, filename = some fn →
      (str ".pdf").isSuffixOf (lowerStr fn) = false) :
    (uploadPdf filename fileId addContent).response
      = Except.error ⟨400, str "Only PDF files are allowed"⟩
    ∧ (uploadPdf filename fileId addContent).fsTrace = []
    ∧ (uploadPdf filename fileId addContent).files = []
    ∧ (uploadPdf filename fileId addContent).kbContents = [] := by
  have hrej : rejectsFilename filename = true := by
    cases filename with
    | none => rfl
    | some fn => simp [rejectsFilename, h fn rfl]
  unfold uploadPdf
  simp [hrej]

/-- Witness for upload_rejects_non_pdf on the filename notes.txt. -/
theorem upload_rejects_non_pdf_witness :
    (str ".pdf").isSuffixOf (lowerStr (str "notes.txt")) = false
    ∧ (uploadPdf (some (str "notes.txt")) (str "abc") (Except.ok ()) ).response
        = Except.error ⟨400, str "Only PDF files are allowed"⟩
    ∧ (uploadPdf (some (str "notes.txt")) (str "abc") (Except.ok ()) ).fsTrace = []
    ∧ (uploadPdf (some (str "notes.txt")) (str "abc") (Except.ok ()) ).files = []
    ∧ (uploadPdf (some (str "notes.txt")) (str "abc") (Except.ok ()) ).kbContents = [] := by
  have happ := upload_rejects_non_pdf (some (str "notes.txt")) (str "abc")
    (Except.ok ()) (by intro fn hfn; cases hfn; decide)
  exact ⟨by decide, happ.1, happ.2.1, happ.2.2.1, happ.2.2.2⟩

/-- Claim C8: when the knowledge-base handoff raises after the file has
been written, upload_pdf deletes the written file before raising the 500
error -- the trace is write then delete of the same path, no file remains,
and the response is the 500 with the wrapped message. -/
theorem upload_rollback_on_error (fn fileId msg : Str)
    (hne : fn.isEmpty = false)
    (hpdf : (str ".pdf").isSuffixOf (lowerStr fn) = true) :
    (uploadPdf (some fn) fileId (Except.error msg)).response
      = Except.error ⟨500, str "Failed to upload PDF: " ++ msg⟩
    ∧ (uploadPdf (some fn) fileId (Except.error msg)).fsTrace
      = [FsOp.write (fileId ++ str "_" ++ fn),
         FsOp.delete (fileId ++ str "_" ++ fn)]
    ∧ (uploadPdf (some fn) fileId (Except.error msg)).files = [] := by
  have hrej : rejectsFilename (some fn) = false := by
    simp [rejectsFilename, hne, hpdf]
  unfold uploadPdf
  simp [hrej]

/-- Witness for upload_rollback_on_error on the mixed-case filename
Doc.PDF and a failing ingestion with message boom. -/
theorem upload_rollback_on_error_witness :
    (str "Doc.PDF").isEmpty = false
    ∧ (str ".pdf").isSuffixOf (lowerStr (str "Doc.PDF")) = true
    ∧ (uploadPdf (some (str "Doc.PDF")) (str "abc") (Except.error (str "boom"))).response
        = Except.error ⟨500, str "Failed to upload PDF: " ++ str "boom"⟩
    ∧ (uploadPdf (some (str "Doc.PDF")) (str "abc") (Except.error (str "boom"))).fsTrace
        = [FsOp.write (str "abc" ++ str "_" ++ str "Doc.PDF"),
           FsOp.delete (str "abc" ++ str "_" ++ str "Doc.PDF")]
    ∧ (uploadPdf (some (str "Doc.PDF")) (str "abc") (Except.error (str "boom"))).files = [] := by
  have happ := upload_rollback_on_error (str "Doc.PDF") (str "abc") (str "boom")
    (by decide) (by decide)
  exact ⟨by decide, by decide, happ.1, happ.2.1, happ.2.2⟩

/-! ### Claims about the client stream consumer -/

/-- Claim C3: the consumer's result is independent of how the SSE byte
sequence is split into successive network reads -- any two read sequences
with the same concatenation (splits inside the data prefix, inside the
marker or between the two delimiter characters included) yield the same
ordered list of processed frame contents and the same session key. -/
theorem consumer_chunking_invariance (sid0 : Option Str)
    (reads1 reads2 : List Str) (h : reads1.flatten = reads2.flatten) :
    (runConsumerFrom sid0 reads1).2 = (runConsumerFrom sid0 reads2).2 := by
  rw [runConsumerFrom_eq_drain, runConsumerFrom_eq_drain, h]

/-- Witness for consumer_chunking_invariance: one stream cut inside the
data prefix, inside the session marker and between the two delimiter
characters, against the same bytes in a single read. -/
theorem consumer_chunking_invariance_witness :
    ([str "da", str "ta: Hi\n", str "\ndata: \n__SESS",
        str "ION_ID__:u1__\n", str "\n"] : List Str).flatten
      = ([str "data: Hi\n\ndata: \n__SESSION_ID__:u1__\n\n"] : List Str).flatten
    ∧ (runConsumerFrom none
        [str "da", str "ta: Hi\n", str "\ndata: \n__SESS",
          str "ION_ID__:u1__\n", str "\n"]).2
      = (runConsumerFrom none
          [str "data: Hi\n\ndata: \n__SESSION_ID__:u1__\n\n"]).2 :=
  ⟨by decide,
    consumer_chunking_invariance none
      [str "da", str "ta: Hi\n", str "\ndata: \n__SESS",
        str "ION_ID__:u1__\n", str "\n"]
      [str "data: Hi\n\ndata: \n__SESSION_ID__:u1__\n\n"] (by decide)⟩

/-- Claim C9: a complete delimiter-terminated block that does not start
with the data prefix is silently discarded -- it changes neither the
processed contents nor the session key -- and draining continues with the
rest of the buffer. -/
theorem consumer_discards_non_data (line rest : Str) (st : ConsumerOut)
    (hnd : dataHeader.isPrefixOf line = false)
    (hnl : splitFirst nlnl (line ++ nlnl) = some (line, [])) :
    processLine line st = st
    ∧ drainBuffer (line ++ (nlnl ++ rest)) st = drainBuffer rest st := by
  have h1 : processLine line st = st := by
    unfold processLine
    simp [hnd]
  refine ⟨h1, ?_⟩
  have hsplit : splitFirst nlnl (line ++ (nlnl ++ rest)) = some (line, rest) := by
    have h2 := splitFirst_append nlnl (line ++ nlnl) rest line [] hnl
    rw [List.append_assoc] at h2
    simpa using h2
  rw [drainBuffer_of_some _ st line rest hsplit, h1]

/-- Witness for consumer_discards_non_data on the non-data block
"event: ping". -/
theorem consumer_discards_non_data_witness :
    dataHeader.isPrefixOf (str "event: ping") = false
    ∧ splitFirst nlnl (str "event: ping" ++ nlnl) = some (str "event: ping", [])
    ∧ processLine (str "event: ping") ⟨[], none⟩ = ⟨[], none⟩
    ∧ drainBuffer (str "event: ping" ++ (nlnl ++ str "data: ok\n\n")) ⟨[], none⟩
        = drainBuffer (str "data: ok\n\n") ⟨[], none⟩ :=
  ⟨by decide, by decide,
    (consumer_discards_non_data (str "event: ping") (str "data: ok\n\n")
        ⟨[], none⟩ (by decide) (by decide)).1,
    (consumer_discards_non_data (str "event: ping") (str "data: ok\n\n")
        ⟨[], none⟩ (by decide) (by decide)).2⟩

/-- Processing a data frame whose payload does not contain the session
marker appends the payload to the displayed contents and leaves the
session key untouched. -/
theorem processLine_no_marker (p : Str) (st : ConsumerOut)
    (h : containsSub sessionIdMarker p = false) :
    processLine (dataHeader ++ p) st
      = ⟨st.processed ++ [p], st.session⟩ := by
  have hpre : dataHeader.isPrefixOf (dataHeader ++ p) = true :=
    List.isPrefixOf_iff_prefix.mpr (List.prefix_append _ _)
  have hdrop : (dataHeader ++ p).drop 6 = p := by
    rw [show dataHeader = ['d', 'a', 't', 'a', ':', ' '] from rfl]
    rfl
  unfold processLine
  rw [hpre, if_pos rfl, hdrop]
  simp [h]

/-- Draining a buffer that is a concatenation of well-formed data frames
processes each frame's line once, in order, and empties the buffer. -/
theorem drainBuffer_frames (payloads : List Str) (st : ConsumerOut)
    (h : ∀ p ∈ payloads,
      splitFirst nlnl ((dataHeader ++ p) ++ nlnl) = some (dataHeader ++ p, [])) :
    drainBuffer (payloads.map sseFrame).flatten st
      = ([], payloads.foldl (fun s p => processLine (dataHeader ++ p) s) st) := by
  induction payloads generalizing st with
  | nil => exact drainBuffer_of_none [] st rfl
  | cons p ps ih =>
      have hp := h p (List.mem_cons_self p ps)
      have hsplit : splitFirst nlnl (((dataHeader ++ p) ++ nlnl) ++ (ps.map sseFrame).flatten)
          = some (dataHeader ++ p, (ps.map sseFrame).flatten) := by
        have h2 := splitFirst_append nlnl ((dataHeader ++ p) ++ nlnl)
          ((ps.map sseFrame).flatten) (dataHeader ++ p) [] hp
        simpa using h2
      have heq : sseFrame p ++ (ps.map sseFrame).flatten
          = ((dataHeader ++ p) ++ nlnl) ++ (ps.map sseFrame).flatten := by
        unfold sseFrame dataHeader nlnl str
        simp [List.append_assoc]
      rw [List.map_cons, List.flatten_cons, heq,
        drainBuffer_of_some _ st _ _ hsplit,
        ih (processLine (dataHeader ++ p) st)
          (fun q hq => h q (List.mem_cons_of_mem p hq)),
        List.foldl_cons]

/-- Folding the consumer's line processing over marker-free payloads
appends every payload and never touches the session key. -/
theorem foldl_processLine_no_marker (ps : List Str) (st : ConsumerOut)
    (h : ∀ p ∈ ps, containsSub sessionIdMarker p = false) :
    ps.foldl (fun s p => processLine (dataHeader ++ p) s) st
      = ⟨st.processed ++ ps, st.session⟩ := by
  induction ps generalizing st with
  | nil => simp
  | cons p ps ih =>
      rw [List.foldl_cons,
        processLine_no_marker p st (h p (List.mem_cons_self p ps)),
        ih ⟨st.processed ++ [p], st.session⟩
          (fun q hq => h q (List.mem_cons_of_mem p hq))]
      simp

/-- Claim C10: fed the complete byte stream of a turn whose producer
raised -- so the stream ends with the JSON error frame instead of a
session frame, and no payload contains the session marker -- the consumer
leaves its stored session key exactly as it was before the turn (possibly
still absent) and renders the error frame's JSON text as ordinary
displayed content, after the content frames, with no special handling. -/
theorem consumer_error_stream_no_session_update (chunks : List Chunk)
    (msg : Str) (session_id : Option Str) (fresh : Str) (sid0 : Option Str)
    (hwf : ∀ p ∈ streamAgentResponse ⟨chunks, some msg⟩ session_id fresh,
      splitFirst nlnl ((dataHeader ++ p) ++ nlnl) = some (dataHeader ++ p, []))
    (hnm : ∀ p ∈ streamAgentResponse ⟨chunks, some msg⟩ session_id fresh,
      containsSub sessionIdMarker p = false) :
    (runConsumerFrom sid0
        [(generate ⟨chunks, some msg⟩ session_id fresh).flatten]).2
      = ⟨processChunks chunks ++ [errorPayload msg], sid0⟩ := by
  rw [runConsumerFrom_eq_drain]
  have hone : ([(generate ⟨chunks, some msg⟩ session_id fresh).flatten] : List Str).flatten
      = ((streamAgentResponse ⟨chunks, some msg⟩ session_id fresh).map sseFrame).flatten := by
    simp [generate]
  rw [hone, drainBuffer_frames _ _ hwf,
    foldl_processLine_no_marker _ _ hnm]
  unfold streamAgentResponse
  simp

/-- Witness for consumer_error_stream_no_session_update: one content
fragment, then an exception with message boom, replayed into a consumer
that already stored the key old. -/
theorem consumer_error_stream_no_session_update_witness :
    ((streamAgentResponse ⟨[Chunk.pstr (str "Hi")], some (str "boom")⟩ none (str "u1")).all
        (fun p => containsSub sessionIdMarker p == false) = true)
    ∧ (runConsumerFrom (some (str "old"))
          [(generate ⟨[Chunk.pstr (str "Hi")], some (str "boom")⟩ none (str "u1")).flatten]).2
        = ⟨processChunks [Chunk.pstr (str "Hi")] ++ [errorPayload (str "boom")],
            some (str "old")⟩ :=
  ⟨by decide,
    consumer_error_stream_no_session_update [Chunk.pstr (str "Hi")] (str "boom")
      none (str "u1") (some (str "old")) (by decide) (by decide)⟩
